import Mathlib

/-!
Verification of the pyflap interactive graph-canvas controller
(`src/gtk_editor/gtk_editor.py`, classes `GraphEditorWindow` and
`GraphEditorWidget`) against its natural-language specification.

The shallow embedding below translates the Python handlers into pure Lean
functions over an explicit `EditorState` record.  Graph-tool objects are
modelled as follows:

* a `Graph` is a vertex count together with a list of (source, target)
  pairs; an edge's identity is its position in the list (graph-tool edge
  descriptors compare by index, and both `g.edges()` iteration and
  `v.out_edges()` follow insertion order);
* boolean `PropertyMap`s become `List Bool` indexed by vertex/edge index
  (`getB` reads with default `false`, matching a property map's default);
* vertex positions are pairs of rationals (the handlers only copy, add and
  compare coordinates, so `Rat` is a faithful stand-in for `double` for the
  properties proved here);
* pointer hit-testing (`is_hit`) and `VertexMatrix.mark_polygon` are
  geometric queries whose results the handlers consume as opaque values;
  the embedding passes their results in as oracle inputs of each event,
  exactly at the calls where the Python code invokes them;
* `emit("picked-changed")` runs the default class closure
  `do_picked_changed` synchronously (GObject `RUN_FIRST`), so the embedding
  applies `do_picked_changed` at the emission point and records the signal
  in an output trace.
-/

namespace PyFlap

/-- A graph as the editor sees it: `graph_tool.Graph` with stable integer
vertex indices `0 .. numVertices - 1` and edges listed in insertion order;
an edge's index in `edges` is its identity. -/
structure Graph where
  numVertices : Nat
  edges : List (Nat × Nat)
  deriving DecidableEq, Repr

/-- Read a boolean property map at an index (default `false`, as for a
freshly created `bool` property map). -/
def getB (m : List Bool) (i : Nat) : Bool :=
  m.getD i false

/-- The dynamic-typed `self.picked` attribute.  The Python code stores
`None`, a `Vertex`, an `Edge`, a vertex- or edge-keyed boolean
`PropertyMap`, and (in `drag_gesture_begin`) the Python boolean `False`;
the embedding gives each dynamic type its own constructor. -/
inductive PickedVal where
  | noPick
  | vertex (v : Nat)
  | edge (e : Nat)
  | vmap
  | emap
  | pyBool (b : Bool)
  deriving DecidableEq, Repr

/-- `isinstance(picked, Vertex) or (isinstance(picked, PropertyMap) and
picked.key_type() == 'v')` -/
def PickedVal.vertexTyped : PickedVal → Bool
  | .vertex _ => true
  | .vmap => true
  | _ => false

/-- `isinstance(picked, Edge) or (isinstance(picked, PropertyMap) and
picked.key_type() == 'e')` -/
def PickedVal.edgeTyped : PickedVal → Bool
  | .edge _ => true
  | .emap => true
  | _ => false

/-- `picked` holds one of the four documented forms:
`None | SingleVertex | SingleEdge | HomogeneousSet`. -/
def PickedVal.isDocumentedForm : PickedVal → Bool
  | .noPick => true
  | .vertex _ => true
  | .edge _ => true
  | .vmap => true
  | .emap => true
  | .pyBool _ => false

/-- The tuple stored in `self.is_moving`: the vertices of the filtered view
`u = GraphView(g, vfilt=selected_vertices)`, the position snapshot
`u.own_property(self.pos).copy()` (a full copy of the position map, read
through `verts`), and the flag `edit_mode == modes.place_node`. -/
structure MoveInfo where
  verts : List Nat
  saved : List (Rat × Rat)
  isNew : Bool
  deriving DecidableEq, Repr

/-- Editing modes, `GraphEditorWidget.Modes`. -/
inductive Mode where
  | select
  | place_node
  | place_edge
  deriving DecidableEq, Repr

/-- The mutable state of one `GraphEditorWidget` that the verified handlers
read or write.  Rendering-only state (cairo matrices, surfaces, the scale)
is not carried: the claims below do not mention it, and the handlers'
effects on the carried fields do not depend on it.  `vertex_matrix` keeps
only presence (`None` or not); its grid contents are a derived cache the
claims never read. -/
structure EditorState where
  g : Graph
  pos : List (Rat × Rat)
  edit_mode : Mode
  pointer : Rat × Rat
  picked : PickedVal
  prepicked : PickedVal
  selected_vertices : List Bool
  selected_edges : List Bool
  preselected_vertices : Option (List Bool)
  preselected_edges : Option (List Bool)
  highlight : List Bool
  srect : Option ((Rat × Rat) × (Rat × Rat))
  zrect : Option ((Rat × Rat) × (Rat × Rat))
  new_edge : Option (Nat × (Rat × Rat))
  drag_vector : Option (Rat × Rat)
  is_moving : Option MoveInfo
  is_panning : Bool
  moved_picked : Bool
  vertex_matrix : Bool
  is_zooming : Bool
  is_rotating : Bool
  is_drag_gesture : Bool
  changed : Bool
  deriving DecidableEq, Repr

/-- Signals the widget emits towards the shell. -/
inductive Signal where
  | picked_changed
  | graph_changed (structural : Bool)
  deriving DecidableEq, Repr

/-- Widget state right after `GraphEditorWidget.__init__` for a given graph
and position map. -/
def init_state (g : Graph) (pos : List (Rat × Rat)) (mode : Mode) : EditorState :=
  { g := g
    pos := pos
    edit_mode := mode
    pointer := (0, 0)
    picked := .noPick
    prepicked := .noPick
    selected_vertices := List.replicate g.numVertices false
    selected_edges := List.replicate g.edges.length false
    preselected_vertices := none
    preselected_edges := none
    highlight := List.replicate g.numVertices false
    srect := none
    zrect := none
    new_edge := none
    drag_vector := none
    is_moving := none
    is_panning := false
    moved_picked := false
    vertex_matrix := false
    is_zooming := false
    is_rotating := false
    is_drag_gesture := false
    changed := false }

/-- `edge_endpoint_property(g, selected_vertices, "source")` or-ed with the
`"target"` variant, as computed by `do_picked_changed` for a vertex-typed
pick: an edge is marked iff its source or its target is selected. -/
def endpoint_or (g : Graph) (selV : List Bool) : List Bool :=
  g.edges.map (fun e => getB selV e.1 || getB selV e.2)

/-- The loop in `do_picked_changed` for an edge-typed pick: clear
`selected_vertices`, then mark source and target of every selected edge. -/
def endpoint_closure (g : Graph) (selE : List Bool) : List Bool :=
  (List.range g.numVertices).map (fun w =>
    g.edges.enum.any (fun ie => getB selE ie.1 && (ie.2.1 == w || ie.2.2 == w)))

/-- `GraphEditorWidget.do_picked_changed` (the default `picked-changed`
class closure).  For a non-`None` pick it recomputes the derived selection
map of the opposite kind, then intersects both preselection maps with the
corresponding selection; for `picked is None` it clears all selection and
preselection state.  `picked = False` (stored by `drag_gesture_begin`) is
not `None` and fails every `isinstance` test, so it reaches only the
intersection step. -/
def do_picked_changed (s : EditorState) : EditorState :=
  match s.picked with
  | .noPick =>
      { s with
        selected_vertices := s.selected_vertices.map (fun _ => false)
        selected_edges := s.selected_edges.map (fun _ => false)
        preselected_vertices := none
        preselected_edges := none }
  | p =>
      let s1 :=
        if p.vertexTyped then
          { s with selected_edges := endpoint_or s.g s.selected_vertices }
        else if p.edgeTyped then
          { s with selected_vertices := endpoint_closure s.g s.selected_edges }
        else s
      let s2 :=
        match s1.preselected_vertices with
        | none => s1
        | some m =>
            { s1 with
              preselected_vertices :=
                some (List.zipWith (fun a b => a && b) s1.selected_vertices m) }
      match s2.preselected_edges with
      | none => s2
      | some m =>
          { s2 with
            preselected_edges :=
              some (List.zipWith (fun a b => a && b) s2.selected_edges m) }

/-- Modelled from the spec: the induced edge set, "the set of edges with
both endpoints in V" — the value the specification asserts
`selected_edges` takes after a vertex pick.  Written from the spec's words
to be compared with `endpoint_or`, the value the source computes. -/
def spec_induced_edges (g : Graph) (selV : List Bool) : List Bool :=
  g.edges.map (fun e => getB selV e.1 && getB selV e.2)

/-- Concrete two-vertex graph with a single edge `0 → 1`. -/
def c1_graph : Graph := ⟨2, [(0, 1)]⟩

/-- State in which vertex `0` alone is picked (as after clicking it). -/
def c1_state : EditorState :=
  { (init_state c1_graph [(0, 0), (1, 1)] Mode.select) with
    picked := .vertex 0
    selected_vertices := [true, false] }

/-- Claim C1 counterexample: after picking vertex 0 in the one-edge graph
`0 → 1`, `do_picked_changed` sets `selected_edges` to `[true]` (the edge
has a selected source), while the induced edge set of `{0}` is `[false]`
(the target 1 is not selected) — so `selected_edges` is not the induced
edge set. -/
theorem c1_induced_counterexample :
    (do_picked_changed c1_state).selected_edges = [true] ∧
      spec_induced_edges c1_graph (do_picked_changed c1_state).selected_vertices = [false] ∧
      (do_picked_changed c1_state).selected_edges ≠
        spec_induced_edges c1_graph (do_picked_changed c1_state).selected_vertices := by
  refine ⟨by decide, by decide, by decide⟩

/-- Claim C1 (amended): after every pick of a vertex or of a homogeneous
set of vertices, `selected_edges` equals the set of edges with **at least
one** endpoint in `selected_vertices` (the incident edge set), not the
induced edge set. -/
theorem c1_selected_edges_incident (s : EditorState)
    (h : s.picked.vertexTyped = true) :
    (do_picked_changed s).selected_edges = endpoint_or s.g s.selected_vertices := by
  cases hp : s.picked with
  | vertex v =>
      cases h1 : s.preselected_vertices <;> cases h2 : s.preselected_edges <;>
        simp [do_picked_changed, hp, PickedVal.vertexTyped, h1, h2]
  | vmap =>
      cases h1 : s.preselected_vertices <;> cases h2 : s.preselected_edges <;>
        simp [do_picked_changed, hp, PickedVal.vertexTyped, h1, h2]
  | noPick => simp [PickedVal.vertexTyped, hp] at h
  | edge e => simp [PickedVal.vertexTyped, hp] at h
  | emap => simp [PickedVal.vertexTyped, hp] at h
  | pyBool b => simp [PickedVal.vertexTyped, hp] at h

/-- Witness for `c1_selected_edges_incident` at the concrete state
`c1_state`. -/
theorem c1_selected_edges_incident_witness :
    PickedVal.vertexTyped c1_state.picked = true ∧
      (do_picked_changed c1_state).selected_edges =
        endpoint_or c1_state.g c1_state.selected_vertices :=
  ⟨by decide, c1_selected_edges_incident c1_state (by decide)⟩

/-! ### Interaction handlers -/

/-- Which block of the button-3 branch of `button_press_event` ran.  The
source has one `if self.is_moving is not None:` statement followed by an
independent `if srect / elif zrect / elif new_edge / else` chain. -/
inductive CancelCase where
  | undoMove
  | dismissSrect
  | dismissZrect
  | dismissNewEdge
  | clearSelection
  deriving DecidableEq, Repr

/-- Result of one event handler: the state after the handler returns (or
after an uncaught Python exception escapes it, when `raised` is true: the
state then reflects everything mutated before the raising call), the
signals emitted, and for button-3 the cancel blocks that ran. -/
structure HandlerResult where
  state : EditorState
  signals : List Signal
  cancel_cases : List CancelCase
  raised : Bool
  deriving DecidableEq, Repr

/-- Side effect of calling `is_hit`: for a graph with at least two vertices
it lazily builds the vertex matrix (`if self.vertex_matrix is None:
self.init_vertex_matrix()`); a single-vertex graph takes the direct
distance check and leaves the matrix `None`. -/
def is_hit_effect (s : EditorState) : EditorState :=
  if 2 ≤ s.g.numVertices && !s.vertex_matrix then { s with vertex_matrix := true } else s

/-- `next((v for v in self.g.vertices() if self.selected_vertices[v]), None)` -/
def first_selected_vertex (g : Graph) (selV : List Bool) : PickedVal :=
  match (List.range g.numVertices).find? (fun v => getB selV v) with
  | some v => PickedVal.vertex v
  | none => PickedVal.noPick

/-- The shift-select branch of `button_press_event` (button 1 with shift,
without ctrl).  `ev.hit` is the oracle value of
`is_hit(pos_from_device(pointer))`. -/
structure PressEvent where
  button : Nat
  ctrl : Bool
  shift : Bool
  pointer : Rat × Rat
  hit : Option Nat
  model_pos : Rat × Rat
  deriving DecidableEq, Repr

/-- Shift-click toggle of a vertex's selection membership
(`button_press_event`, the `state & SHIFT_MASK` arm). -/
def button_press_shift (s : EditorState) (ev : PressEvent) : EditorState × List Signal :=
  let s := is_hit_effect s
  match ev.hit with
  | some hit =>
      let s :=
        if (!(s.picked == PickedVal.noPick)) && s.picked.edgeTyped then
          { s with selected_vertices := s.selected_vertices.map (fun _ => false) }
        else s
      let value := getB s.selected_vertices hit
      let s :=
        if value && s.preselected_vertices.isSome then
          { s with preselected_vertices := s.preselected_vertices.map (fun m => m.set hit false) }
        else s
      let s := { s with selected_vertices := s.selected_vertices.set hit (!value) }
      let s :=
        if 1 < s.selected_vertices.count true then { s with picked := PickedVal.vmap }
        else { s with picked := first_selected_vertex s.g s.selected_vertices }
      let s := do_picked_changed s
      ({ s with srect := some (ev.pointer, ev.pointer) }, [Signal.picked_changed])
  | none =>
      ({ s with srect := some (ev.pointer, ev.pointer) }, [])

/-- `self.g.add_vertex(1)` followed by `self.pos[hit] =
pos_from_device(pointer)` in place-node mode; graph-tool extends every
vertex property map with its default value (`false`, resp. the appended
position).  `adjust_default_sizes` touches only visual properties and
`emit("graph-changed", True)` runs `do_graph_changed`
(`self._changed = to` plus a full repaint). -/
def place_node_insert (s : EditorState) (model_pos : Rat × Rat) : EditorState × Nat :=
  let newV := s.g.numVertices
  ({ s with
      g := { numVertices := s.g.numVertices + 1, edges := s.g.edges }
      pos := s.pos ++ [model_pos]
      selected_vertices := s.selected_vertices ++ [false]
      highlight := s.highlight ++ [false]
      preselected_vertices := s.preselected_vertices.map (fun m => m ++ [false])
      changed := true },
    newV)

/-- The `if hit is not None: ... else: # pan` part of the plain-click arm
of `button_press_event`, shared by the place-node path (where `hit` is the
new vertex) and the select/place-edge path (where it is the `is_hit`
oracle). -/
def press_plain_hit (s : EditorState) (ev : PressEvent) (hit : Option Nat) :
    EditorState × List Signal :=
  match hit with
  | some h =>
      if s.edit_mode == Mode.place_edge then
        ({ s with new_edge := some (h, ev.model_pos) }, [])
      else
        let (s, sigs) :=
          if s.picked == PickedVal.noPick || s.picked.edgeTyped ||
              !(getB s.selected_vertices h) then
            let s := { s with
              selected_vertices := (s.selected_vertices.map (fun _ => false)).set h true
              picked := PickedVal.vertex h
              preselected_vertices := none }
            (do_picked_changed s, [Signal.picked_changed])
          else (s, [])
        let verts := (List.range s.g.numVertices).filter (fun v => getB s.selected_vertices v)
        ({ s with
            drag_vector := some ev.pointer
            is_moving := some ⟨verts, s.pos, s.edit_mode == Mode.place_node⟩ }, sigs)
  | none =>
      ({ s with drag_vector := some ev.pointer, is_panning := true }, [])

/-- Plain click (button 1, no modifiers): place a node, start a new-edge
preview, start a move, or start panning. -/
def button_press_plain (s : EditorState) (ev : PressEvent) : EditorState × List Signal :=
  if s.edit_mode == Mode.place_node then
    let p := place_node_insert s ev.model_pos
    let r := press_plain_hit p.1 ev (some p.2)
    (r.1, Signal.graph_changed true :: r.2)
  else
    let s := is_hit_effect s
    press_plain_hit s ev ev.hit

/-- `for v in u.vertices(): self.vertex_matrix.update_vertex(g.vertex(v),
saved_pos[v])`: `update_vertex` rebuckets the grid entry and writes the
position map, so on the carried state it is `pos.set v (saved v)`. -/
def restore_positions (pos : List (Rat × Rat)) (verts : List Nat)
    (saved : List (Rat × Rat)) : List (Rat × Rat) :=
  verts.foldl (fun ps v => ps.set v (saved.getD v (0, 0))) pos

/-- `g.remove_vertex(v)` with graph-tool's default `fast=False`: vertex
indices above `v` shift down by one, edges incident to `v` disappear, and
every property map drops its entry for `v` (resp. for the removed
edges). -/
def remove_vertex_state (s : EditorState) (v : Nat) : EditorState :=
  let keep := fun (e : Nat × Nat) => !(e.1 == v || e.2 == v)
  let shift := fun (w : Nat) => if v < w then w - 1 else w
  { s with
    g := { numVertices := s.g.numVertices - 1
           edges := (s.g.edges.filter keep).map (fun e => (shift e.1, shift e.2)) }
    pos := s.pos.eraseIdx v
    selected_vertices := s.selected_vertices.eraseIdx v
    highlight := s.highlight.eraseIdx v
    preselected_vertices := s.preselected_vertices.map (fun m => m.eraseIdx v)
    selected_edges := ((s.g.edges.zip s.selected_edges).filter (fun em => keep em.1)).map
      (fun em => em.2)
    preselected_edges := s.preselected_edges.map (fun m =>
      ((s.g.edges.zip m).filter (fun em => keep em.1)).map (fun em => em.2)) }

/-- The `for v in u.vertices(): self.g.remove_vertex(v)` loop of the
cancel branch.  In the only scenario the claims exercise (and the only one
the code's own comments consider), the filtered view holds a single
newly-placed vertex, so iterating while removing is a single removal. -/
def remove_selected_new (s : EditorState) (verts : List Nat) : EditorState :=
  verts.foldl remove_vertex_state s

/-- `GraphEditorWidget.init_vertex_matrix`: `None` for a single-vertex
graph, a fresh `VertexMatrix` otherwise; on an empty graph
`ungroup_vector_property` produces empty arrays and `pos_x.fa.min()`
raises, modelled as `none`.  (The degenerate zero-extent re-layout calls
`sfdp_layout`; no claim reads positions after that path.) -/
def init_vertex_matrix_result (g : Graph) : Option Bool :=
  if g.numVertices == 1 then some false
  else if g.numVertices == 0 then none
  else some true

/-- The `if srect / elif zrect / elif new_edge / else` chain that closes
the button-3 branch of `button_press_event`.  It runs whether or not the
preceding `if self.is_moving is not None:` block ran. -/
def cancel_chain (s : EditorState) (sigs : List Signal) (cs : List CancelCase) :
    HandlerResult :=
  if s.srect.isSome then
    ⟨{ s with srect := none }, sigs, cs ++ [CancelCase.dismissSrect], false⟩
  else if s.zrect.isSome then
    ⟨{ s with zrect := none }, sigs, cs ++ [CancelCase.dismissZrect], false⟩
  else if s.new_edge.isSome then
    ⟨{ s with new_edge := none }, sigs, cs ++ [CancelCase.dismissNewEdge], false⟩
  else
    let s := { s with picked := PickedVal.noPick, preselected_vertices := none }
    let s := do_picked_changed s
    let s := { s with selected_vertices := s.selected_vertices.map (fun _ => false) }
    ⟨s, sigs ++ [Signal.picked_changed], cs ++ [CancelCase.clearSelection], false⟩

/-- Tail of the undo-move block: `self.is_moving = None; self.moved_picked
= False; self.picked = None; self.emit("picked-changed")`, then control
falls through to the srect/zrect/new-edge/else chain. -/
def cancel_after_undo (s : EditorState) (sigs : List Signal) : HandlerResult :=
  let s := { s with is_moving := none, moved_picked := false, picked := PickedVal.noPick }
  let s := do_picked_changed s
  cancel_chain s (sigs ++ [Signal.picked_changed]) [CancelCase.undoMove]

/-- The `elif event.button == 3:` branch of `button_press_event`.  For a
drag of pre-existing vertices with `self.vertex_matrix` equal to `None`
(single-vertex graph), `self.vertex_matrix.update_vertex` raises an
`AttributeError` at the first loop iteration, aborting the handler with
only `drag_vector` cleared; a cancel of a placement that empties the graph
raises inside `init_vertex_matrix` after the removal. -/
def button_press_cancel (s : EditorState) : HandlerResult :=
  match s.is_moving with
  | some info =>
      let s := { s with drag_vector := none }
      if info.isNew == false then
        if s.vertex_matrix || info.verts.isEmpty then
          cancel_after_undo
            { s with pos := restore_positions s.pos info.verts info.saved } []
        else
          ⟨s, [], [CancelCase.undoMove], true⟩
      else
        let s := remove_selected_new s info.verts
        match init_vertex_matrix_result s.g with
        | none => ⟨s, [], [CancelCase.undoMove], true⟩
        | some b =>
            cancel_after_undo { s with vertex_matrix := b, changed := true }
              [Signal.graph_changed true]
  | none => cancel_chain s [] []

/-- `GraphEditorWidget.button_press_event`. -/
def button_press_event (s : EditorState) (ev : PressEvent) : HandlerResult :=
  if s.g.numVertices == 0 && !(s.edit_mode == Mode.place_node) then ⟨s, [], [], false⟩
  else if s.is_zooming || s.is_rotating || s.is_drag_gesture then ⟨s, [], [], false⟩
  else
    let s := { s with pointer := ev.pointer }
    if ev.button == 1 && !ev.ctrl then
      if ev.shift then
        let r := button_press_shift s ev
        ⟨r.1, r.2, [], false⟩
      else
        let r := button_press_plain s ev
        ⟨r.1, r.2, [], false⟩
    else if ev.button == 1 && ev.ctrl then
      ⟨{ s with zrect := some (ev.pointer, ev.pointer) }, [], [], false⟩
    else if ev.button == 3 then
      button_press_cancel s
    else ⟨s, [], [], false⟩

/-- A button-release event with its two geometric oracle results:
`hit` for `is_hit(pos_from_device((event.x, event.y)))` and `marked`
for the content of `selected_vertices` after
`vertex_matrix.mark_polygon(poly, selected_vertices)` (which only adds
`true` entries for vertices inside the dragged rectangle). -/
structure RelEvent where
  button : Nat
  release_pos : Rat × Rat
  hit : Option Nat
  marked : List Bool
  deriving DecidableEq, Repr

/-- `GraphEditorWidget.button_release_event`.  The zoom-rectangle commit
changes only view state the embedding does not carry (`tmatrix`, `scale`,
parallel-edge control points, `lazy_regenerate`) besides clearing `zrect`.
With `srect` set and no vertex matrix (single-vertex graph),
`vertex_matrix.mark_polygon` raises. -/
def button_release_event (s : EditorState) (ev : RelEvent) : HandlerResult :=
  if s.g.numVertices == 0 then ⟨s, [], [], false⟩
  else if s.is_zooming || s.is_rotating || s.is_drag_gesture then ⟨s, [], [], false⟩
  else if ev.button == 1 then
    if s.zrect.isSome then
      ⟨{ s with zrect := none, is_moving := none, is_panning := false }, [], [], false⟩
    else if s.srect.isSome then
      let s :=
        if (!(s.picked == PickedVal.noPick)) && s.picked.edgeTyped then
          { s with selected_vertices := s.selected_vertices.map (fun _ => false) }
        else s
      if !s.vertex_matrix then ⟨s, [], [], true⟩
      else
        let before := s.selected_vertices.count true
        let s := { s with selected_vertices := ev.marked }
        let aftr := s.selected_vertices.count true
        let s :=
          if 1 < aftr then { s with picked := PickedVal.vmap }
          else { s with picked := first_selected_vertex s.g s.selected_vertices }
        let (s, sigs) :=
          if !(before == aftr) then (do_picked_changed s, [Signal.picked_changed])
          else (s, [])
        ⟨{ s with srect := none, is_moving := none, is_panning := false }, sigs, [], false⟩
    else if s.new_edge.isSome then
      let ne := s.new_edge.getD (0, (0, 0))
      let s :=
        match ev.hit with
        | some h =>
            { s with
              g := { numVertices := s.g.numVertices, edges := s.g.edges ++ [(ne.1, h)] }
              selected_edges := s.selected_edges ++ [false]
              preselected_edges := s.preselected_edges.map (fun m => m ++ [false]) }
        | none => s
      let s := { s with changed := true }
      ⟨{ s with new_edge := none, is_moving := none, is_panning := false },
        [Signal.graph_changed true], [], false⟩
    else if s.moved_picked then
      let s := { s with drag_vector := none, moved_picked := false, changed := true }
      ⟨{ s with is_moving := none, is_panning := false }, [Signal.graph_changed true], [], false⟩
    else
      ⟨{ s with is_moving := none, is_panning := false }, [], [], false⟩
  else ⟨s, [], [], false⟩

/-- `list(hit.out_edges())`: indices of the edges leaving `v`, in
insertion order. -/
def out_edges (g : Graph) (v : Nat) : List Nat :=
  (g.edges.enum.filter (fun ie => ie.2.1 == v)).map (fun ie => ie.1)

/-- `hit.in_edges()`: indices of the edges entering `v`, in insertion
order. -/
def in_edges (g : Graph) (v : Nat) : List Nat :=
  (g.edges.enum.filter (fun ie => ie.2.2 == v)).map (fun ie => ie.1)

/-- `hit_edge_pool = list(hit.out_edges()); hit_edge_pool += [edge for
edge in hit.in_edges() if edge not in hit_edge_pool]` — the incident
edges of `v` de-duplicated by edge identity (a self-loop appears in both
enumerations but is kept once). -/
def hit_edge_pool (g : Graph) (v : Nat) : List Nat :=
  (in_edges g v).foldl (fun pool e => if pool.contains e then pool else pool ++ [e])
    (out_edges g v)

/-- Python list indexing `pool[i]` with a possibly negative index. -/
def py_index (pool : List Nat) (i : Int) : Option Nat :=
  if 0 ≤ i then pool.get? i.toNat else pool.get? (pool.length - (-i).toNat)

/-- The index arithmetic of the edge-cycling branch of `scroll_event`:
`i = pool.index(picked); i += 1 if dy > 0 else -1; i += len; i %= len`
when the picked element is in the pool, else `i = 0 if dy > 0 else -1`
(Python's `-1` indexing the last element). -/
def scroll_pick (pool : List Nat) (picked : PickedVal) (dy : Rat) : Option Nat :=
  let idx : Int :=
    match picked with
    | PickedVal.edge e =>
        if pool.contains e then
          ((pool.indexOf e : Int) + (if 0 < dy then 1 else -1) + pool.length) % pool.length
        else if 0 < dy then 0 else -1
    | _ => if 0 < dy then 0 else -1
  py_index pool idx

/-- A scroll event; `dy` is the smooth delta, or `1` for a discrete
UP/DOWN event (the source sets `dy = 1` for both directions); `hit` is the
`is_hit` oracle at the pointer. -/
structure ScrollEvent where
  pointer : Rat × Rat
  ctrl : Bool
  shift : Bool
  dy : Rat
  hit : Option Nat
  deriving DecidableEq, Repr

/-- `GraphEditorWidget.scroll_event`.  The ctrl-zoom and the pan arms
change only view state the embedding does not carry (`tmatrix`/`smatrix`,
`scale`, control points), so on the carried fields they are identities. -/
def scroll_event (s : EditorState) (ev : ScrollEvent) : HandlerResult :=
  if s.is_zooming || s.is_rotating then ⟨s, [], [], false⟩
  else
    let s := { s with pointer := ev.pointer }
    if ev.dy == 0 then ⟨s, [], [], false⟩
    else if ev.ctrl then ⟨s, [], [], false⟩
    else if ev.shift then ⟨s, [], [], false⟩
    else
      let s := is_hit_effect s
      match ev.hit with
      | some h =>
          if (!(s.picked == PickedVal.noPick)) &&
              (getB s.highlight h || getB s.selected_vertices h) then
            let pool := hit_edge_pool s.g h
            if 0 < pool.length then
              match scroll_pick pool s.picked ev.dy with
              | some e =>
                  let s := { s with
                    selected_vertices := s.selected_vertices.map (fun _ => false)
                    selected_edges := (s.selected_edges.map (fun _ => false)).set e true
                    preselected_vertices := none
                    picked := PickedVal.edge e }
                  ⟨do_picked_changed s, [Signal.picked_changed], [], false⟩
              | none => ⟨s, [], [], false⟩
            else ⟨s, [], [], false⟩
          else ⟨s, [], [], false⟩
      | none => ⟨s, [], [], false⟩

/-- `GraphEditorWidget.drag_gesture_begin` (touch drag): clears the vertex
selection and stores the Python boolean `False` — not `None` — in
`self.picked` before emitting `picked-changed`. -/
def drag_gesture_begin (s : EditorState) : EditorState × List Signal :=
  let s := { s with
    is_drag_gesture := true
    selected_vertices := s.selected_vertices.map (fun _ => false)
    preselected_vertices := none
    picked := PickedVal.pyBool false }
  (do_picked_changed s, [Signal.picked_changed])

/-- The boolean map `_preselect` writes: the current preselection map
(created on demand as an all-false property map when it is `None`) with
the toggled cell's new value at index `i`.  The new value is the negation
of the current one, since the toggled cell displays the element's current
preselection state (`model[path][1] = not cell.get_active()`). -/
def toggled_preselection (cur : Option (List Bool)) (n : Nat) (i : Nat) : List Bool :=
  (cur.getD (List.replicate n false)).set i
    (!(match cur with
       | none => false
       | some m => getB m i))

/-- `GraphEditorWindow._preselect` for a row of the vertices filter: write
the toggled value, then replace an all-false map by `None`
(`if not any(tab.preselected_vertices.fa): ... = None`). -/
def window_preselect_vertex (s : EditorState) (v : Nat) : EditorState :=
  if (toggled_preselection s.preselected_vertices s.g.numVertices v).any (fun b => b) then
    { s with
      preselected_vertices :=
        some (toggled_preselection s.preselected_vertices s.g.numVertices v) }
  else { s with preselected_vertices := none }

/-- `GraphEditorWindow._preselect` for a row of the edges filter. -/
def window_preselect_edge (s : EditorState) (e : Nat) : EditorState :=
  if (toggled_preselection s.preselected_edges s.g.edges.length e).any (fun b => b) then
    { s with
      preselected_edges :=
        some (toggled_preselection s.preselected_edges s.g.edges.length e) }
  else { s with preselected_edges := none }

/-! ### Helper lemmas -/

/-- `do_picked_changed` only rewrites selection and preselection maps: the
graph, the positions and the transient rectangles are untouched. -/
theorem do_picked_changed_view (s : EditorState) :
    (do_picked_changed s).pos = s.pos ∧ (do_picked_changed s).g = s.g ∧
      (do_picked_changed s).srect = s.srect ∧ (do_picked_changed s).zrect = s.zrect ∧
      (do_picked_changed s).new_edge = s.new_edge := by
  cases hp : s.picked <;> cases h1 : s.preselected_vertices <;>
    cases h2 : s.preselected_edges <;>
      simp [do_picked_changed, hp, h1, h2, PickedVal.vertexTyped, PickedVal.edgeTyped]

/-- Positions untouched by a fold of `List.set` at indices outside the
written set. -/
theorem foldl_set_get_not_mem (f : Nat → Rat × Rat) (verts : List Nat) (v : Nat)
    (hv : v ∉ verts) (l : List (Rat × Rat)) :
    (verts.foldl (fun ps u => ps.set u (f u)) l).get? v = l.get? v := by
  induction verts generalizing l with
  | nil => rfl
  | cons u rest ih =>
      simp only [List.foldl_cons]
      rw [ih (fun h => hv (List.mem_cons_of_mem _ h))]
      exact List.get?_set_ne _ _ (fun h => hv (h ▸ List.mem_cons_self u rest))

/-- Positions written by a fold of `List.set`: every index in the written
set ends at its assigned value. -/
theorem foldl_set_get_mem (f : Nat → Rat × Rat) (verts : List Nat) (v : Nat)
    (hv : v ∈ verts) (l : List (Rat × Rat)) (hlen : v < l.length) :
    (verts.foldl (fun ps u => ps.set u (f u)) l).get? v = some (f v) := by
  induction verts generalizing l with
  | nil => cases hv
  | cons u rest ih =>
      simp only [List.foldl_cons]
      by_cases hm : v ∈ rest
      · exact ih hm _ (by simpa using hlen)
      · have hvu : v = u := by
          rcases List.mem_cons.mp hv with h | h
          · exact h
          · exact absurd h hm
        subst hvu
        rw [foldl_set_get_not_mem f rest v hm]
        exact List.get?_set_eq_of_lt _ hlen

/-- The trailing cancel chain fires exactly its first applicable case. -/
def cancel_chain_case (s : EditorState) : CancelCase :=
  if s.srect.isSome then CancelCase.dismissSrect
  else if s.zrect.isSome then CancelCase.dismissZrect
  else if s.new_edge.isSome then CancelCase.dismissNewEdge
  else CancelCase.clearSelection

theorem cancel_chain_cases (s : EditorState) (sigs : List Signal) (cs : List CancelCase) :
    (cancel_chain s sigs cs).cancel_cases = cs ++ [cancel_chain_case s] ∧
      (cancel_chain s sigs cs).raised = false := by
  unfold cancel_chain cancel_chain_case
  split
  · simp
  · split
    · simp
    · split <;> simp

theorem cancel_chain_pos (s : EditorState) (sigs : List Signal) (cs : List CancelCase) :
    (cancel_chain s sigs cs).state.pos = s.pos ∧
      (cancel_chain s sigs cs).state.g = s.g := by
  unfold cancel_chain
  split
  · simp
  · split
    · simp
    · split
      · simp
      · simp [(do_picked_changed_view _).1, (do_picked_changed_view _).2.1]

theorem cancel_after_undo_pos (s : EditorState) (sigs : List Signal) :
    (cancel_after_undo s sigs).state.pos = s.pos ∧
      (cancel_after_undo s sigs).state.g = s.g := by
  unfold cancel_after_undo
  constructor
  · rw [(cancel_chain_pos _ _ _).1, (do_picked_changed_view _).1]
  · rw [(cancel_chain_pos _ _ _).2, (do_picked_changed_view _).2.1]

/-! ### Claim C9 -/

/-- Claim C9 (code bug): `drag_gesture_begin` stores the Python boolean
`False` in `picked` — a fifth form besides `None`, single vertex, single
edge and homogeneous-set property map — so the four-case invariant fails
on every invocation of the touch-drag handler. -/
theorem c9_drag_gesture_stores_bool (s : EditorState) :
    (drag_gesture_begin s).1.picked = PickedVal.pyBool false ∧
      ((drag_gesture_begin s).1.picked).isDocumentedForm = false := by
  cases h2 : s.preselected_edges <;>
    simp [drag_gesture_begin, do_picked_changed, PickedVal.vertexTyped,
      PickedVal.edgeTyped, PickedVal.isDocumentedForm, h2]

/-! ### Claims C8 and C10: place-edge press and release -/

/-- Claim C8: in place-edge mode a button-1 press on a hit vertex starts
the floating preview edge from that vertex (graph unchanged), and a
button-1 release ending a preview adds an edge exactly when the release
point hits a vertex — from the preview source to the hit vertex (a
self-loop when they coincide) — and adds nothing over empty space. -/
theorem c8_place_edge (s1 s2 : EditorState) (ev1 : PressEvent) (ev2 : RelEvent)
    (hn1 : (s1.g.numVertices == 0) = false)
    (hz1 : s1.is_zooming = false) (hr1 : s1.is_rotating = false)
    (hd1 : s1.is_drag_gesture = false)
    (hmode : s1.edit_mode = Mode.place_edge)
    (hb1 : ev1.button = 1) (hc1 : ev1.ctrl = false) (hs1 : ev1.shift = false)
    (h : Nat) (hhit : ev1.hit = some h)
    (hn2 : (s2.g.numVertices == 0) = false)
    (hz2 : s2.is_zooming = false) (hr2 : s2.is_rotating = false)
    (hd2 : s2.is_drag_gesture = false)
    (hb2 : ev2.button = 1) (hzr : s2.zrect = none) (hsr : s2.srect = none)
    (ne : Nat × (Rat × Rat)) (hne : s2.new_edge = some ne) :
    (button_press_event s1 ev1).state.new_edge = some (h, ev1.model_pos) ∧
      (button_press_event s1 ev1).state.g = s1.g ∧
      (button_release_event s2 ev2).state.g.edges =
        (s2.g.edges ++ match ev2.hit with
                       | some t => [(ne.1, t)]
                       | none => []) ∧
      (button_release_event s2 ev2).state.new_edge = none := by
  refine ⟨?_, ?_, ?_, ?_⟩
  · simp [button_press_event, hn1, hz1, hr1, hd1, hb1, hc1, hs1, hmode,
      button_press_plain, is_hit_effect, press_plain_hit, hhit]
    split <;> simp
  · simp [button_press_event, hn1, hz1, hr1, hd1, hb1, hc1, hs1, hmode,
      button_press_plain, is_hit_effect, press_plain_hit, hhit]
    split <;> simp
  · cases hh : ev2.hit <;>
      simp [button_release_event, hn2, hz2, hr2, hd2, hb2, hzr, hsr, hne, hh]
  · cases hh : ev2.hit <;>
      simp [button_release_event, hn2, hz2, hr2, hd2, hb2, hzr, hsr, hne, hh]

/-- Witness for `c8_place_edge` at a concrete two-vertex graph: pressing
on vertex 0 starts the preview, releasing over vertex 1 appends edge
`(0, 1)`. -/
theorem c8_place_edge_witness :
    (button_press_event (init_state ⟨2, []⟩ [(0, 0), (3, 3)] Mode.place_edge)
        ⟨1, false, false, (0, 0), some 0, (0, 0)⟩).state.new_edge = some (0, (0, 0)) ∧
      (button_release_event
          { (init_state ⟨2, []⟩ [(0, 0), (3, 3)] Mode.place_edge) with
            new_edge := some (0, (0, 0)) }
          ⟨1, (3, 3), some 1, []⟩).state.g.edges = [(0, 1)] := by
  have h := c8_place_edge (init_state ⟨2, []⟩ [(0, 0), (3, 3)] Mode.place_edge)
    { (init_state ⟨2, []⟩ [(0, 0), (3, 3)] Mode.place_edge) with new_edge := some (0, (0, 0)) }
    ⟨1, false, false, (0, 0), some 0, (0, 0)⟩ ⟨1, (3, 3), some 1, []⟩
    (by decide) (by decide) (by decide) (by decide) (by decide)
    (by decide) (by decide) (by decide) 0 (by decide)
    (by decide) (by decide) (by decide) (by decide) (by decide)
    (by decide) (by decide) (0, (0, 0)) (by decide)
  exact ⟨h.1, h.2.2.1⟩

/-- Claim C10: a button-1 release that ends a new-edge preview emits
`graph-changed` with `structural = true` unconditionally — also when the
release hits no vertex and the graph is left unchanged. -/
theorem c10_release_emits_unconditionally (s : EditorState) (ev : RelEvent)
    (hn : (s.g.numVertices == 0) = false)
    (hz : s.is_zooming = false) (hr : s.is_rotating = false)
    (hd : s.is_drag_gesture = false)
    (hb : ev.button = 1) (hzr : s.zrect = none) (hsr : s.srect = none)
    (hne : s.new_edge.isSome = true) :
    (button_release_event s ev).signals = [Signal.graph_changed true] ∧
      (ev.hit = none → (button_release_event s ev).state.g = s.g) := by
  constructor
  · cases hh : ev.hit <;>
      simp [button_release_event, hn, hz, hr, hd, hb, hzr, hsr, hne, hh]
  · intro hh
    simp [button_release_event, hn, hz, hr, hd, hb, hzr, hsr, hne, hh]

/-- Witness for `c10_release_emits_unconditionally`: release over empty
space with a pending preview emits `graph-changed(true)` although no edge
was added. -/
theorem c10_release_witness :
    (button_release_event
        { (init_state ⟨1, []⟩ [(0, 0)] Mode.place_edge) with new_edge := some (0, (2, 2)) }
        ⟨1, (2, 2), none, []⟩).signals = [Signal.graph_changed true] ∧
      (button_release_event
          { (init_state ⟨1, []⟩ [(0, 0)] Mode.place_edge) with new_edge := some (0, (2, 2)) }
          ⟨1, (2, 2), none, []⟩).state.g = (⟨1, []⟩ : Graph) := by
  have h := c10_release_emits_unconditionally
    { (init_state ⟨1, []⟩ [(0, 0)] Mode.place_edge) with new_edge := some (0, (2, 2)) }
    ⟨1, (2, 2), none, []⟩ (by decide) (by decide) (by decide) (by decide)
    (by decide) (by decide) (by decide) (by decide)
  exact ⟨h.1, h.2 rfl⟩


/-! ### Claim C2: cancel of a vertex drag -/

/-- Dispatch of `button_press_event` to the button-3 branch once the
guards pass. -/
theorem button_press_event_cancel (s : EditorState) (ev : PressEvent)
    (hn : (s.g.numVertices == 0 && !(s.edit_mode == Mode.place_node)) = false)
    (hz : s.is_zooming = false) (hr : s.is_rotating = false)
    (hd : s.is_drag_gesture = false) (hb : ev.button = 3) :
    button_press_event s ev = button_press_cancel { s with pointer := ev.pointer } := by
  have hev1 : (ev.button == 1) = false := by simp [hb]
  have hev3 : (ev.button == 3) = true := by simp [hb]
  simp [button_press_event, hn, hz, hr, hd, hev1, hev3]


/-- Button-3 with no move in progress: only the dismissal chain runs. -/
theorem button_press_cancel_none (s : EditorState) (hmv : s.is_moving = none) :
    button_press_cancel s = cancel_chain s [] [] := by
  unfold button_press_cancel
  split
  next info heq => rw [hmv] at heq; exact Option.noConfusion heq
  next => rfl

/-- The undo-move block for pre-existing vertices with the vertex matrix
present (or nothing to iterate): positions are rewritten from the saved
snapshot and control falls through to the chain. -/
theorem button_press_cancel_restore (s : EditorState) (info : MoveInfo)
    (hmv : s.is_moving = some info) (hnew : info.isNew = false)
    (hcond : (s.vertex_matrix || info.verts.isEmpty) = true) :
    button_press_cancel s =
      cancel_after_undo
        { s with drag_vector := none, pos := restore_positions s.pos info.verts info.saved }
        [] := by
  unfold button_press_cancel
  split
  next info' heq =>
    rw [hmv] at heq
    cases Option.some.inj heq
    simp [hnew, hcond]
  next heq => rw [hmv] at heq; exact Option.noConfusion heq

/-- The undo-move block for pre-existing vertices without the vertex
matrix: `update_vertex` raises at the first iteration, leaving only
`drag_vector` cleared. -/
theorem button_press_cancel_raise (s : EditorState) (info : MoveInfo)
    (hmv : s.is_moving = some info) (hnew : info.isNew = false)
    (hcond : (s.vertex_matrix || info.verts.isEmpty) = false) :
    button_press_cancel s =
      ⟨{ s with drag_vector := none }, [], [CancelCase.undoMove], true⟩ := by
  unfold button_press_cancel
  split
  next info' heq =>
    rw [hmv] at heq
    cases Option.some.inj heq
    simp [hnew, hcond]
  next heq => rw [hmv] at heq; exact Option.noConfusion heq

/-- The undo-move block for a newly placed vertex: the selected vertices
are removed, then `init_vertex_matrix` either raises (graph emptied) or
the handler finishes through the chain. -/
theorem button_press_cancel_new (s : EditorState) (info : MoveInfo)
    (hmv : s.is_moving = some info) (hnew : info.isNew = true) :
    button_press_cancel s =
      (match init_vertex_matrix_result
          (remove_selected_new { s with drag_vector := none } info.verts).g with
      | none =>
          ⟨remove_selected_new { s with drag_vector := none } info.verts, [],
            [CancelCase.undoMove], true⟩
      | some b =>
          cancel_after_undo
            { (remove_selected_new { s with drag_vector := none } info.verts) with
              vertex_matrix := b, changed := true } [Signal.graph_changed true]) := by
  unfold button_press_cancel
  split
  next info' heq =>
    rw [hmv] at heq
    cases Option.some.inj heq
    simp [hnew]
  next heq => rw [hmv] at heq; exact Option.noConfusion heq

/-- Single-vertex graph mid-drag: the vertex was grabbed at `(0, 0)` and
has been dragged to `(5, 5)`; `vertex_matrix` is `None` because `is_hit`
on a one-vertex graph uses the direct distance check and never builds
it. -/
def c2_bad : EditorState :=
  { (init_state ⟨1, []⟩ [(5, 5)] Mode.select) with
    picked := PickedVal.vertex 0
    selected_vertices := [true]
    drag_vector := some (5, 5)
    moved_picked := true
    is_moving := some ⟨[0], [(0, 0)], false⟩ }

def c2_ev : PressEvent := ⟨3, false, false, (5, 5), none, (5, 5)⟩

/-- Claim C2 counterexample: on a single-vertex graph the cancel of a drag
of the pre-existing vertex raises (`self.vertex_matrix` is `None` when
`update_vertex` is called) and the vertex stays at its dragged position
`(5, 5)` instead of its pre-drag `(0, 0)` — the restore does not happen
for this drag. -/
theorem c2_single_vertex_counterexample :
    (button_press_event c2_bad c2_ev).raised = true ∧
      (button_press_event c2_bad c2_ev).state.pos = [(5, 5)] ∧
      (button_press_event c2_bad c2_ev).state.pos ≠ [(0, 0)] := by
  refine ⟨by decide, by decide, by decide⟩

/-- Claim C2 (amended): provided the spatial index exists (always the case
when the drag started on a graph with at least two vertices, since the
press's `is_hit` builds it), a button-3 cancel restores every dragged
vertex's position exactly to its saved pre-drag value; and the cancel of a
drag of a newly placed vertex removes that vertex, bringing the vertex
count back to its value before the placement. -/
theorem c2_cancel_drag (s : EditorState) (ev : PressEvent) (info : MoveInfo)
    (hn : (s.g.numVertices == 0 && !(s.edit_mode == Mode.place_node)) = false)
    (hz : s.is_zooming = false) (hr : s.is_rotating = false)
    (hd : s.is_drag_gesture = false)
    (hb : ev.button = 3) (hmv : s.is_moving = some info) :
    (info.isNew = false → s.vertex_matrix = true →
      (button_press_event s ev).raised = false ∧
        ∀ v ∈ info.verts, v < s.pos.length →
          ((button_press_event s ev).state.pos).get? v =
            some (info.saved.getD v (0, 0))) ∧
    (info.isNew = true → ∀ w, info.verts = [w] →
      (button_press_event s ev).state.g.numVertices = s.g.numVertices - 1) := by
  rw [button_press_event_cancel s ev hn hz hr hd hb]
  constructor
  · intro hnew hmat
    rw [button_press_cancel_restore { s with pointer := ev.pointer } info hmv hnew
      (by simp [hmat])]
    constructor
    · unfold cancel_after_undo
      exact (cancel_chain_cases _ _ _).2
    · intro v hv hlen
      rw [(cancel_after_undo_pos _ _).1]
      exact foldl_set_get_mem _ info.verts v hv s.pos hlen
  · intro hnew w hw
    rw [button_press_cancel_new { s with pointer := ev.pointer } info hmv hnew]
    cases hinit : init_vertex_matrix_result
        (remove_selected_new { { s with pointer := ev.pointer } with drag_vector := none }
          info.verts).g with
    | none =>
        simp only [hinit]
        rw [hw]
        rfl
    | some b =>
        simp only [hinit]
        rw [(cancel_after_undo_pos _ _).2]
        rw [hw]
        rfl

/-- Witness for `c2_cancel_drag`: a two-vertex graph, vertex 0 dragged
from `(1, 2)` to `(7, 7)`; the cancel restores `(1, 2)` exactly. -/
theorem c2_cancel_drag_witness :
    ((button_press_event
        { (init_state ⟨2, []⟩ [(7, 7), (3, 4)] Mode.select) with
          picked := PickedVal.vertex 0
          selected_vertices := [true, false]
          vertex_matrix := true
          is_moving := some ⟨[0], [(1, 2), (3, 4)], false⟩ }
        ⟨3, false, false, (7, 7), none, (7, 7)⟩).state.pos).get? 0 =
      some ((1 : Rat), (2 : Rat)) := by
  have h := c2_cancel_drag
    { (init_state ⟨2, []⟩ [(7, 7), (3, 4)] Mode.select) with
      picked := PickedVal.vertex 0
      selected_vertices := [true, false]
      vertex_matrix := true
      is_moving := some ⟨[0], [(1, 2), (3, 4)], false⟩ }
    ⟨3, false, false, (7, 7), none, (7, 7)⟩ ⟨[0], [(1, 2), (3, 4)], false⟩
    (by decide) (by decide) (by decide) (by decide) (by decide) (by decide)
  have h2 := (h.1 (by decide) (by decide)).2 0 (by decide) (by decide)
  simpa using h2

/-! ### Claim C3: cancel priority order -/

/-- `remove_selected_new` never touches the transient rectangles or the
preview edge. -/
theorem remove_selected_new_rects (vs : List Nat) (t : EditorState) :
    (remove_selected_new t vs).srect = t.srect ∧
      (remove_selected_new t vs).zrect = t.zrect ∧
      (remove_selected_new t vs).new_edge = t.new_edge := by
  induction vs generalizing t with
  | nil => exact ⟨rfl, rfl, rfl⟩
  | cons a rest ih =>
      have h := ih (remove_vertex_state t a)
      have e1 : (remove_vertex_state t a).srect = t.srect := rfl
      have e2 : (remove_vertex_state t a).zrect = t.zrect := rfl
      have e3 : (remove_vertex_state t a).new_edge = t.new_edge := rfl
      unfold remove_selected_new at h ⊢
      rw [List.foldl_cons]
      exact ⟨h.1.trans e1, h.2.1.trans e2, h.2.2.trans e3⟩

/-- The undo-move tail fires `undoMove` followed by the chain's first
applicable case, computed on the untouched rectangle fields. -/
theorem cancel_after_undo_cases (s : EditorState) (sigs : List Signal) :
    (cancel_after_undo s sigs).cancel_cases =
        [CancelCase.undoMove, cancel_chain_case s] ∧
      (cancel_after_undo s sigs).raised = false := by
  unfold cancel_after_undo
  have hview := do_picked_changed_view
    { s with is_moving := none, moved_picked := false, picked := PickedVal.noPick }
  constructor
  · rw [(cancel_chain_cases _ _ _).1]
    have hc : cancel_chain_case (do_picked_changed
        { s with is_moving := none, moved_picked := false, picked := PickedVal.noPick }) =
        cancel_chain_case s := by
      simp [cancel_chain_case, hview.2.2.1, hview.2.2.2.1, hview.2.2.2.2]
    rw [hc]
    rfl
  · exact (cancel_chain_cases _ _ _).2

/-- Cases fired by the button-3 branch, for every non-raising call. -/
theorem button_press_cancel_cases_eq (s : EditorState)
    (hnr : (button_press_cancel s).raised = false) :
    (button_press_cancel s).cancel_cases =
      (if s.is_moving.isSome then [CancelCase.undoMove] else []) ++
        [cancel_chain_case s] := by
  cases hmv : s.is_moving with
  | none =>
      rw [button_press_cancel_none s hmv]
      simp [hmv, (cancel_chain_cases s [] []).1]
  | some info =>
      cases hnew : info.isNew with
      | false =>
          by_cases hcond : (s.vertex_matrix || info.verts.isEmpty) = true
          · rw [button_press_cancel_restore s info hmv hnew hcond]
            rw [(cancel_after_undo_cases _ _).1]
            simp [hmv, cancel_chain_case]
          · rw [button_press_cancel_raise s info hmv hnew
              (by simpa using hcond)] at hnr
            simp at hnr
      | true =>
          rw [button_press_cancel_new s info hmv hnew] at hnr ⊢
          cases hinit : init_vertex_matrix_result
              (remove_selected_new { s with drag_vector := none } info.verts).g with
          | none => simp [hinit] at hnr
          | some b =>
              simp only [hinit] at hnr ⊢
              rw [(cancel_after_undo_cases _ _).1]
              have hrm := remove_selected_new_rects info.verts { s with drag_vector := none }
              have hc : cancel_chain_case
                  { (remove_selected_new { s with drag_vector := none } info.verts) with
                    vertex_matrix := b, changed := true } = cancel_chain_case s := by
                simp [cancel_chain_case, hrm.1, hrm.2.1, hrm.2.2]
              rw [hc]
              simp [hmv]

/-- A state with an in-progress move and no rectangle or preview
pending. -/
def c3_state : EditorState :=
  { (init_state ⟨2, []⟩ [(0, 0), (1, 1)] Mode.select) with
    picked := PickedVal.vertex 0
    selected_vertices := [true, false]
    vertex_matrix := true
    is_moving := some ⟨[0], [(0, 0), (1, 1)], false⟩ }

def c3_ev : PressEvent := ⟨3, false, false, (0, 0), none, (0, 0)⟩

/-- Claim C3 counterexample: when the undo-move case applies (and no
rectangle or preview is pending), the clear-selection case fires as well —
the undo block is an `if` followed by an independent `if/elif/else`
chain — and `picked-changed` is emitted twice in the same handler call. -/
theorem c3_two_cases_fire :
    (button_press_event c3_state c3_ev).cancel_cases =
        [CancelCase.undoMove, CancelCase.clearSelection] ∧
      (button_press_event c3_state c3_ev).signals =
        [Signal.picked_changed, Signal.picked_changed] ∧
      [CancelCase.undoMove, CancelCase.clearSelection] ≠ [CancelCase.undoMove] := by
  refine ⟨by decide, by decide, by decide⟩

/-- Claim C3 (amended): on a right-click (that does not raise), the
undo-move case fires exactly when a move is in progress, and independently
the first applicable of rubber-band dismissal, zoom-rectangle dismissal,
new-edge dismissal, clear-selection fires; in particular, when a move is
undone while no rectangle or preview is pending, the clear-selection case
runs in addition. -/
theorem c3_cancel_priority (s : EditorState) (ev : PressEvent)
    (hn : (s.g.numVertices == 0 && !(s.edit_mode == Mode.place_node)) = false)
    (hz : s.is_zooming = false) (hr : s.is_rotating = false)
    (hd : s.is_drag_gesture = false)
    (hb : ev.button = 3)
    (hnr : (button_press_event s ev).raised = false) :
    (button_press_event s ev).cancel_cases =
      (if s.is_moving.isSome then [CancelCase.undoMove] else []) ++
        [cancel_chain_case s] := by
  rw [button_press_event_cancel s ev hn hz hr hd hb] at hnr ⊢
  exact button_press_cancel_cases_eq { s with pointer := ev.pointer } hnr

/-- Witness for `c3_cancel_priority`: with no move in progress and a
rubber-band rectangle pending, exactly the rectangle is dismissed. -/
theorem c3_cancel_priority_witness :
    (button_press_event
        { (init_state ⟨1, []⟩ [(0, 0)] Mode.select) with srect := some ((0, 0), (2, 2)) }
        ⟨3, false, false, (1, 1), none, (1, 1)⟩).cancel_cases =
      [CancelCase.dismissSrect] := by
  have h := c3_cancel_priority
    { (init_state ⟨1, []⟩ [(0, 0)] Mode.select) with srect := some ((0, 0), (2, 2)) }
    ⟨3, false, false, (1, 1), none, (1, 1)⟩
    (by decide) (by decide) (by decide) (by decide) (by decide) (by decide)
  simpa using h

/-! ### Claim C7: scroll cycling through incident edges -/

/-- `is_hit` changes at most `vertex_matrix`. -/
theorem is_hit_effect_fields (s : EditorState) :
    (is_hit_effect s).g = s.g ∧ (is_hit_effect s).picked = s.picked ∧
      (is_hit_effect s).highlight = s.highlight ∧
      (is_hit_effect s).selected_vertices = s.selected_vertices ∧
      (is_hit_effect s).selected_edges = s.selected_edges := by
  unfold is_hit_effect
  split <;> simp

/-- `do_picked_changed` preserves `picked` and the gesture flags. -/
theorem do_picked_changed_flags (s : EditorState) :
    (do_picked_changed s).picked = s.picked ∧
      (do_picked_changed s).highlight = s.highlight ∧
      (do_picked_changed s).is_zooming = s.is_zooming ∧
      (do_picked_changed s).is_rotating = s.is_rotating := by
  cases hp : s.picked <;> cases h1 : s.preselected_vertices <;>
    cases h2 : s.preselected_edges <;>
      simp [do_picked_changed, hp, h1, h2, PickedVal.vertexTyped, PickedVal.edgeTyped]

/-- For an edge-typed pick, `do_picked_changed` replaces
`selected_vertices` by the endpoint closure of `selected_edges` and keeps
`selected_edges`. -/
theorem do_picked_changed_edge_typed (s : EditorState)
    (h : s.picked.edgeTyped = true) :
    (do_picked_changed s).selected_vertices = endpoint_closure s.g s.selected_edges ∧
      (do_picked_changed s).selected_edges = s.selected_edges := by
  cases hp : s.picked with
  | edge e =>
      cases h1 : s.preselected_vertices <;> cases h2 : s.preselected_edges <;>
        simp [do_picked_changed, hp, PickedVal.vertexTyped, PickedVal.edgeTyped, h1, h2]
  | emap =>
      cases h1 : s.preselected_vertices <;> cases h2 : s.preselected_edges <;>
        simp [do_picked_changed, hp, PickedVal.vertexTyped, PickedVal.edgeTyped, h1, h2]
  | noPick => simp [PickedVal.edgeTyped, hp] at h
  | vertex v => simp [PickedVal.edgeTyped, hp] at h
  | vmap => simp [PickedVal.edgeTyped, hp] at h
  | pyBool b => simp [PickedVal.edgeTyped, hp] at h

theorem out_edges_nodup (g : Graph) (v : Nat) : (out_edges g v).Nodup := by
  unfold out_edges
  have h1 : (g.edges.enum.filter (fun ie => ie.2.1 == v)).Sublist g.edges.enum :=
    List.filter_sublist _
  have h2 := h1.map (fun ie : Nat × (Nat × Nat) => ie.1)
  exact (List.nodup_enum_map_fst _).sublist h2

theorem fold_pool_nodup (ins : List Nat) (pool : List Nat) (h : pool.Nodup) :
    (ins.foldl (fun p e => if p.contains e then p else p ++ [e]) pool).Nodup := by
  induction ins generalizing pool with
  | nil => exact h
  | cons e rest ih =>
      simp only [List.foldl_cons]
      by_cases hc : pool.contains e
      · rw [if_pos hc]
        exact ih pool h
      · rw [if_neg hc]
        refine ih _ (List.nodup_append.mpr ⟨h, List.nodup_singleton e, ?_⟩)
        intro x hx hxe
        have hxe' : x = e := by simpa using hxe
        subst hxe'
        exact hc (by simpa using hx)

theorem fold_pool_mem (ins : List Nat) (pool : List Nat) (x : Nat)
    (hx : x ∈ ins.foldl (fun p e => if p.contains e then p else p ++ [e]) pool) :
    x ∈ pool ∨ x ∈ ins := by
  induction ins generalizing pool with
  | nil => exact Or.inl hx
  | cons e rest ih =>
      simp only [List.foldl_cons] at hx
      by_cases hc : pool.contains e
      · rw [if_pos hc] at hx
        rcases ih _ hx with h | h
        · exact Or.inl h
        · exact Or.inr (List.mem_cons_of_mem _ h)
      · rw [if_neg hc] at hx
        rcases ih _ hx with h | h
        · rcases List.mem_append.mp h with h' | h'
          · exact Or.inl h'
          · have : x = e := by simpa using h'
            subst this
            exact Or.inr (List.mem_cons_self _ _)
        · exact Or.inr (List.mem_cons_of_mem _ h)

/-- The de-duplicated incident-edge pool has no repeated edge identity. -/
theorem hit_edge_pool_nodup (g : Graph) (v : Nat) : (hit_edge_pool g v).Nodup :=
  fold_pool_nodup _ _ (out_edges_nodup g v)

/-- Every pool element is the index of an edge incident to `v`. -/
theorem hit_edge_pool_incident (g : Graph) (v e : Nat) (h : e ∈ hit_edge_pool g v) :
    ∃ p, g.edges.get? e = some p ∧ (p.1 = v ∨ p.2 = v) := by
  have hmem := fold_pool_mem _ _ _ h
  rcases hmem with h' | h'
  · unfold out_edges at h'
    rcases List.mem_map.mp h' with ⟨ie, hie, hfst⟩
    have hf := List.mem_filter.mp hie
    refine ⟨ie.2, ?_, Or.inl (by simpa using hf.2)⟩
    rw [← hfst]
    exact List.mem_enum_iff_get?.mp hf.1
  · unfold in_edges at h'
    rcases List.mem_map.mp h' with ⟨ie, hie, hfst⟩
    have hf := List.mem_filter.mp hie
    refine ⟨ie.2, ?_, Or.inr (by simpa using hf.2)⟩
    rw [← hfst]
    exact List.mem_enum_iff_get?.mp hf.1

theorem getB_set_self (l : List Bool) (e : Nat) (b : Bool) (h : e < l.length) :
    getB (l.set e b) e = b := by
  unfold getB
  rw [List.getD_eq_getD_get?, List.get?_set_eq_of_lt _ h]
  rfl

/-- A selected incident edge forces its endpoint into the closure. -/
theorem endpoint_closure_getB (g : Graph) (selE : List Bool) (v e : Nat) (p : Nat × Nat)
    (hv : v < g.numVertices) (hget : g.edges.get? e = some p)
    (hsel : getB selE e = true) (hinc : p.1 = v ∨ p.2 = v) :
    getB (endpoint_closure g selE) v = true := by
  unfold endpoint_closure getB
  rw [List.getD_eq_getD_get?, List.get?_map, List.get?_range hv]
  simp only [Option.map_some', Option.getD_some]
  refine List.any_eq_true.mpr ⟨(e, p), List.mem_enum_iff_get?.mpr (by simpa using hget), ?_⟩
  have hpv : (p.1 == v || p.2 == v) = true := by
    rcases hinc with h | h <;> simp [h]
  simp only [hpv, Bool.and_true]
  simpa [getB, List.getD_eq_getD_get?, List.get?_eq_getElem?] using hsel

/-- The edge-cycling arm of `scroll_event` as an equation, once every
guard has resolved. -/
theorem scroll_event_eq (s : EditorState) (ev : ScrollEvent) (v e : Nat)
    (hz : s.is_zooming = false) (hr : s.is_rotating = false)
    (hdy : ev.dy = 1) (hc : ev.ctrl = false) (hs : ev.shift = false)
    (hhit : ev.hit = some v)
    (hp : (!(s.picked == PickedVal.noPick)) = true)
    (hcond : (getB s.highlight v || getB s.selected_vertices v) = true)
    (hpl : 0 < (hit_edge_pool s.g v).length)
    (hsp : scroll_pick (hit_edge_pool s.g v) s.picked 1 = some e) :
    scroll_event s ev =
      ⟨do_picked_changed
          { (is_hit_effect { s with pointer := ev.pointer }) with
            selected_vertices := s.selected_vertices.map (fun _ => false)
            selected_edges := (s.selected_edges.map (fun _ => false)).set e true
            preselected_vertices := none
            picked := PickedVal.edge e },
        [Signal.picked_changed], [], false⟩ := by
  unfold scroll_event
  by_cases hm : (2 ≤ s.g.numVertices && !s.vertex_matrix) = true <;>
    simp [hz, hr, hdy, hc, hs, hhit, is_hit_effect, hm, hp, hcond, hpl, hsp]

/-- One forward scroll over an eligible vertex: the pool element returned
by `scroll_pick` becomes the new single-edge pick, and the state stays
eligible for the next scroll. -/
theorem scroll_step (s : EditorState) (ev : ScrollEvent) (v e : Nat)
    (hz : s.is_zooming = false) (hr : s.is_rotating = false)
    (hdy : ev.dy = 1) (hc : ev.ctrl = false) (hs : ev.shift = false)
    (hhit : ev.hit = some v)
    (hv : v < s.g.numVertices)
    (hlen : s.selected_edges.length = s.g.edges.length)
    (hp : (!(s.picked == PickedVal.noPick)) = true)
    (hcond : (getB s.highlight v || getB s.selected_vertices v) = true)
    (hpl : 0 < (hit_edge_pool s.g v).length)
    (hsp : scroll_pick (hit_edge_pool s.g v) s.picked 1 = some e)
    (hep : e ∈ hit_edge_pool s.g v) :
    (scroll_event s ev).state.picked = PickedVal.edge e ∧
      (scroll_event s ev).state.g = s.g ∧
      (scroll_event s ev).state.is_zooming = false ∧
      (scroll_event s ev).state.is_rotating = false ∧
      (scroll_event s ev).state.selected_edges.length = s.g.edges.length ∧
      (getB (scroll_event s ev).state.highlight v ||
        getB (scroll_event s ev).state.selected_vertices v) = true := by
  rw [scroll_event_eq s ev v e hz hr hdy hc hs hhit hp hcond hpl hsp]
  set t := { (is_hit_effect { s with pointer := ev.pointer }) with
    selected_vertices := s.selected_vertices.map (fun _ => false)
    selected_edges := (s.selected_edges.map (fun _ => false)).set e true
    preselected_vertices := none
    picked := PickedVal.edge e } with ht
  have hflags := do_picked_changed_flags t
  have hview := do_picked_changed_view t
  have htp : t.picked = PickedVal.edge e := rfl
  have het : (do_picked_changed t).selected_vertices =
      endpoint_closure t.g t.selected_edges ∧
      (do_picked_changed t).selected_edges = t.selected_edges :=
    do_picked_changed_edge_typed t (by rw [htp]; rfl)
  have htg : t.g = s.g := by
    rw [ht]
    have := (is_hit_effect_fields { s with pointer := ev.pointer }).1
    simpa using this
  rcases hit_edge_pool_incident s.g v e hep with ⟨p, hget, hinc⟩
  have hel : e < s.g.edges.length := by
    have := List.get?_eq_some.mp hget
    exact this.1
  have hsel : getB t.selected_edges e = true := by
    have : t.selected_edges = (s.selected_edges.map (fun _ => false)).set e true := rfl
    rw [this]
    refine getB_set_self _ _ _ ?_
    rw [List.length_map, hlen]
    exact hel
  refine ⟨?_, ?_, ?_, ?_, ?_, ?_⟩
  · rw [hflags.1, htp]
  · rw [hview.2.1, htg]
  · rw [hflags.2.2.1]
    rw [ht]
    have : (is_hit_effect { s with pointer := ev.pointer }).is_zooming = s.is_zooming := by
      unfold is_hit_effect
      split <;> simp
    simpa [this] using hz
  · rw [hflags.2.2.2]
    rw [ht]
    have : (is_hit_effect { s with pointer := ev.pointer }).is_rotating = s.is_rotating := by
      unfold is_hit_effect
      split <;> simp
    simpa [this] using hr
  · rw [het.2]
    have : t.selected_edges = (s.selected_edges.map (fun _ => false)).set e true := rfl
    rw [this, List.length_set, List.length_map]
    exact hlen
  · have h2 : getB (do_picked_changed t).selected_vertices v = true := by
      rw [het.1, htg]
      exact endpoint_closure_getB s.g t.selected_edges v e p hv hget hsel hinc
    simp [h2]

/-- Forward scroll with a non-edge pick lands on the first pool element
(`i = 0 if dy > 0 else -1`). -/
theorem scroll_pick_from_vertex (a b c w : Nat) :
    scroll_pick [a, b, c] (PickedVal.vertex w) 1 = some a := by
  have h01 : (0 : Rat) < 1 := by norm_num
  simp [scroll_pick, py_index, h01]

theorem scroll_pick_edge0 (a b c : Nat) :
    scroll_pick [a, b, c] (PickedVal.edge a) 1 = some b := by
  have h01 : (0 : Rat) < 1 := by norm_num
  simp [scroll_pick, py_index, h01, List.indexOf_cons_self]

theorem scroll_pick_edge1 (a b c : Nat) (hab : (a == b) = false) :
    scroll_pick [a, b, c] (PickedVal.edge b) 1 = some c := by
  have h01 : (0 : Rat) < 1 := by norm_num
  simp [scroll_pick, py_index, h01, List.indexOf_cons, hab, List.indexOf_cons_self]

theorem scroll_pick_edge2 (a b c : Nat) (hac : (a == c) = false) (hbc : (b == c) = false) :
    scroll_pick [a, b, c] (PickedVal.edge c) 1 = some a := by
  have h01 : (0 : Rat) < 1 := by norm_num
  simp [scroll_pick, py_index, h01, List.indexOf_cons, hac, hbc, List.indexOf_cons_self]

/-- Two-vertex graph with three parallel edges `0 → 1`, vertex 0 picked
and selected. -/
def c7_state : EditorState :=
  { (init_state ⟨2, [(0, 1), (0, 1), (0, 1)]⟩ [(0, 0), (1, 1)] Mode.select) with
    picked := PickedVal.vertex 0
    selected_vertices := [true, false] }

def c7_ev : ScrollEvent := ⟨(0, 0), false, false, 1, some 0⟩

/-- Claim C7 counterexample: with deduplicated incident-edge pool
`[e0, e1, e2]` and no edge picked, three forward scrolls land on `e2`,
not on `e0` (the first scroll already picks `e0`; wrapping back to `e0`
takes a fourth scroll). -/
theorem c7_three_scrolls_land_on_last :
    hit_edge_pool c7_state.g 0 = [0, 1, 2] ∧
      (scroll_event (scroll_event (scroll_event c7_state c7_ev).state c7_ev).state
          c7_ev).state.picked = PickedVal.edge 2 ∧
      PickedVal.edge 2 ≠ PickedVal.edge 0 := by
  refine ⟨by decide, by decide, by decide⟩

/-- Claim C7 (amended): over a selected-or-highlighted vertex with
deduplicated incident-edge pool `[e0, e1, e2]`, forward scrolls starting
from a vertex pick cycle `e0, e1, e2, e0, ...`: three scrolls land on
`e2` and the fourth wraps back to `e0`. -/
theorem c7_scroll_cycle (s : EditorState) (ev : ScrollEvent) (v a b c w : Nat)
    (hz : s.is_zooming = false) (hr : s.is_rotating = false)
    (hdy : ev.dy = 1) (hc : ev.ctrl = false) (hs : ev.shift = false)
    (hhit : ev.hit = some v)
    (hv : v < s.g.numVertices)
    (hlen : s.selected_edges.length = s.g.edges.length)
    (hpool : hit_edge_pool s.g v = [a, b, c])
    (hp : s.picked = PickedVal.vertex w)
    (hcond : (getB s.highlight v || getB s.selected_vertices v) = true) :
    (scroll_event (scroll_event (scroll_event s ev).state ev).state ev).state.picked =
        PickedVal.edge c ∧
      (scroll_event (scroll_event (scroll_event (scroll_event s ev).state ev).state
          ev).state ev).state.picked = PickedVal.edge a := by
  have hnd := hit_edge_pool_nodup s.g v
  rw [hpool] at hnd
  have hab : (a == b) = false := by
    have := List.nodup_cons.mp hnd
    simp only [List.mem_cons] at this
    simp [beq_eq_false_iff_ne]
    intro h
    exact this.1 (Or.inl h)
  have hac : (a == c) = false := by
    have := List.nodup_cons.mp hnd
    simp only [List.mem_cons] at this
    simp [beq_eq_false_iff_ne]
    intro h
    exact this.1 (Or.inr (Or.inl h))
  have hbc : (b == c) = false := by
    have := List.nodup_cons.mp (List.nodup_cons.mp hnd).2
    simp only [List.mem_cons] at this
    simp [beq_eq_false_iff_ne]
    intro h
    exact this.1 (Or.inl h)
  have hpl : 0 < (hit_edge_pool s.g v).length := by rw [hpool]; simp
  have H1 := scroll_step s ev v a hz hr hdy hc hs hhit hv hlen
    (by simp [hp]) hcond hpl
    (by rw [hpool, hp]; exact scroll_pick_from_vertex a b c w)
    (by rw [hpool]; simp)
  obtain ⟨p1, g1, z1, r1, l1, c1⟩ := H1
  have hv1 : v < (scroll_event s ev).state.g.numVertices := by rw [g1]; exact hv
  have hlen1 : (scroll_event s ev).state.selected_edges.length =
      (scroll_event s ev).state.g.edges.length := by rw [g1]; exact l1
  have hpool1 : hit_edge_pool (scroll_event s ev).state.g v = [a, b, c] := by
    rw [g1]; exact hpool
  have hpl1 : 0 < (hit_edge_pool (scroll_event s ev).state.g v).length := by
    rw [hpool1]; simp
  have H2 := scroll_step (scroll_event s ev).state ev v b z1 r1 hdy hc hs hhit hv1 hlen1
    (by simp [p1]) c1 hpl1
    (by rw [hpool1, p1]; exact scroll_pick_edge0 a b c)
    (by rw [hpool1]; simp)
  obtain ⟨p2, g2, z2, r2, l2, c2⟩ := H2
  have hv2 : v < (scroll_event (scroll_event s ev).state ev).state.g.numVertices := by
    rw [g2, g1]; exact hv
  have hlen2 : (scroll_event (scroll_event s ev).state ev).state.selected_edges.length =
      (scroll_event (scroll_event s ev).state ev).state.g.edges.length := by
    rw [g2]; exact l2
  have hpool2 : hit_edge_pool (scroll_event (scroll_event s ev).state ev).state.g v =
      [a, b, c] := by
    rw [g2, g1]; exact hpool
  have hpl2 : 0 < (hit_edge_pool (scroll_event (scroll_event s ev).state ev).state.g
      v).length := by
    rw [hpool2]; simp
  have H3 := scroll_step (scroll_event (scroll_event s ev).state ev).state ev v c z2 r2
    hdy hc hs hhit hv2 hlen2 (by simp [p2]) c2 hpl2
    (by rw [hpool2, p2]; exact scroll_pick_edge1 a b c hab)
    (by rw [hpool2]; simp)
  obtain ⟨p3, g3, z3, r3, l3, c3⟩ := H3
  refine ⟨p3, ?_⟩
  have hv3 : v < (scroll_event (scroll_event (scroll_event s ev).state ev).state
      ev).state.g.numVertices := by
    rw [g3, g2, g1]; exact hv
  have hlen3 : (scroll_event (scroll_event (scroll_event s ev).state ev).state
        ev).state.selected_edges.length =
      (scroll_event (scroll_event (scroll_event s ev).state ev).state
        ev).state.g.edges.length := by
    rw [g3]; exact l3
  have hpool3 : hit_edge_pool (scroll_event (scroll_event (scroll_event s ev).state
      ev).state ev).state.g v = [a, b, c] := by
    rw [g3, g2, g1]; exact hpool
  have hpl3 : 0 < (hit_edge_pool (scroll_event (scroll_event (scroll_event s ev).state
      ev).state ev).state.g v).length := by
    rw [hpool3]; simp
  have H4 := scroll_step (scroll_event (scroll_event (scroll_event s ev).state ev).state
      ev).state ev v a z3 r3 hdy hc hs hhit hv3 hlen3 (by simp [p3]) c3 hpl3
    (by rw [hpool3, p3]; exact scroll_pick_edge2 a b c hac hbc)
    (by rw [hpool3]; simp)
  exact H4.1

/-- Witness for `c7_scroll_cycle` at the concrete three-parallel-edge
graph: three scrolls land on edge 2, the fourth on edge 0. -/
theorem c7_scroll_cycle_witness :
    (scroll_event (scroll_event (scroll_event c7_state c7_ev).state c7_ev).state
        c7_ev).state.picked = PickedVal.edge 2 ∧
      (scroll_event (scroll_event (scroll_event (scroll_event c7_state c7_ev).state
          c7_ev).state c7_ev).state c7_ev).state.picked = PickedVal.edge 0 :=
  c7_scroll_cycle c7_state c7_ev 0 0 1 2 0
    (by decide) (by decide) (by decide) (by decide) (by decide) (by decide)
    (by decide) (by decide) (by decide) (by decide) (by decide)

/-! ### Claim C4: `merge_parallel_edges` -/

/-- An edge of the widget's graph together with its `"text"` label from
`self.eprops` (the empty string when the property holds no text, which is
falsy in Python exactly like a missing label). -/
structure LEdge where
  src : Nat
  tgt : Nat
  label : String
  deriving DecidableEq, Repr

def edge_key (e : LEdge) : Nat × Nat := (e.src, e.tgt)

def keys (es : List LEdge) : List (Nat × Nat) := es.map edge_key

/-- `label_parallel_edges(g, mark_only=True)`: an edge is marked iff an
earlier edge in iteration order has the same (source, target) pair — the
first edge of every parallel class stays unmarked. -/
def marks_aux (seen : List (Nat × Nat)) : List (Nat × Nat) → List Bool
  | [] => []
  | k :: ks => seen.contains k :: marks_aux (seen ++ [k]) ks

def label_parallel_edges_marks (es : List LEdge) : List Bool :=
  marks_aux [] (keys es)

/-- `self.g.edge(source, target)`: the index of the first edge with the
given (source, target) pair, in the same iteration order used by
`g.edges()` and by `label_parallel_edges`. -/
def first_with_key (k : Nat × Nat) (es : List LEdge) : Option Nat :=
  (es.enum.find? (fun ie => ie.2.src == k.1 && ie.2.tgt == k.2)).map (fun ie => ie.1)

/-- `if text[remaining]: text[remaining] += sep + text[edge] else:
text[remaining] = text[edge]` -/
def combine_label (sep cur extra : String) : String :=
  if cur == "" then extra else cur ++ sep ++ extra

/-- Assignment to `eprops["text"]` at one edge index. -/
def update_label_at : List LEdge → Nat → (String → String) → List LEdge
  | [], _, _ => []
  | e :: es, 0, f => { e with label := f e.label } :: es
  | e :: es, r + 1, f => e :: update_label_at es r f

/-- One iteration of the `for edge in self.g.edges():` label-merging loop
at edge index `i`. -/
def merge_text_step (sep : String) (ms : List Bool) (cur : List LEdge) (i : Nat) :
    List LEdge :=
  if getB ms i then
    match cur.get? i with
    | none => cur
    | some e =>
        if e.label == "" then cur
        else
          match first_with_key (edge_key e) cur with
          | none => cur
          | some r => update_label_at cur r (fun curLabel => combine_label sep curLabel e.label)
  else cur

/-- The whole label-merging loop (edge indices in iteration order). -/
def merge_text_pass (sep : String) (ms : List Bool) (es : List LEdge) : List LEdge :=
  (List.range es.length).foldl (merge_text_step sep ms) es

/-- `remove_labeled_edges(g, marked)`: drop the marked edges. -/
def remove_marked {α : Type} : List Bool → List α → List α
  | b :: bs, x :: xs => if b then remove_marked bs xs else x :: remove_marked bs xs
  | _, xs => xs

/-- `GraphEditorWidget.merge_parallel_edges`: mark the parallel
duplicates, fold their labels into the surviving first edge of each
class, then remove the marked edges. -/
def merge_parallel_edges (sep : String) (es : List LEdge) : List LEdge :=
  let marked := label_parallel_edges_marks es
  remove_marked marked (merge_text_pass sep marked es)

theorem keys_update_label_at (es : List LEdge) (r : Nat) (f : String → String) :
    keys (update_label_at es r f) = keys es := by
  induction es generalizing r with
  | nil => rfl
  | cons e rest ih =>
      cases r with
      | zero => rfl
      | succ r' =>
          have h := ih r'
          simpa [keys, update_label_at] using h

theorem keys_merge_text_step (sep : String) (ms : List Bool) (cur : List LEdge) (i : Nat) :
    keys (merge_text_step sep ms cur i) = keys cur := by
  unfold merge_text_step
  split
  · split
    · rfl
    · split
      · rfl
      · split
        · rfl
        · exact keys_update_label_at _ _ _
  · rfl

theorem keys_foldl_steps (sep : String) (ms : List Bool) (l : List Nat) (cur : List LEdge) :
    keys (l.foldl (merge_text_step sep ms) cur) = keys cur := by
  induction l generalizing cur with
  | nil => rfl
  | cons i rest ih => rw [List.foldl_cons, ih, keys_merge_text_step]

theorem keys_merge_text_pass (sep : String) (ms : List Bool) (es : List LEdge) :
    keys (merge_text_pass sep ms es) = keys es :=
  keys_foldl_steps sep ms _ es

/-- Keeping the unmarked first occurrences of every key yields a list of
pairwise-distinct keys, none of which was seen before. -/
theorem remove_marked_marks_nodup (ks : List (Nat × Nat)) (seen : List (Nat × Nat)) :
    (remove_marked (marks_aux seen ks) ks).Nodup ∧
      ∀ x ∈ remove_marked (marks_aux seen ks) ks, x ∉ seen := by
  induction ks generalizing seen with
  | nil => exact ⟨List.nodup_nil, by intro x hx; cases hx⟩
  | cons k rest ih =>
      simp only [marks_aux]
      by_cases hc : k ∈ seen
      · have hcc : seen.contains k = true := by simpa using hc
        rw [hcc]
        have hred : remove_marked (true :: marks_aux (seen ++ [k]) rest) (k :: rest) =
            remove_marked (marks_aux (seen ++ [k]) rest) rest := rfl
        rw [hred]
        have h := ih (seen ++ [k])
        refine ⟨h.1, ?_⟩
        intro x hx hxs
        exact h.2 x hx (List.mem_append_left _ hxs)
      · have hcc : seen.contains k = false := by simpa using hc
        rw [hcc]
        have hred : remove_marked (false :: marks_aux (seen ++ [k]) rest) (k :: rest) =
            k :: remove_marked (marks_aux (seen ++ [k]) rest) rest := rfl
        rw [hred]
        have h := ih (seen ++ [k])
        have hknot : k ∉ remove_marked (marks_aux (seen ++ [k]) rest) rest := by
          intro hk
          exact h.2 k hk (List.mem_append_right _ (List.mem_singleton_self k))
        refine ⟨List.nodup_cons.mpr ⟨hknot, h.1⟩, ?_⟩
        intro x hx
        rcases List.mem_cons.mp hx with h' | h'
        · subst h'; exact hc
        · intro hxs
          exact h.2 x h' (List.mem_append_left _ hxs)

/-- On a list of pairwise-distinct, unseen keys nothing gets marked. -/
theorem marks_aux_eq_false (ks : List (Nat × Nat)) (seen : List (Nat × Nat))
    (h1 : ks.Nodup) (h2 : ∀ x ∈ ks, x ∉ seen) :
    marks_aux seen ks = ks.map (fun _ => false) := by
  induction ks generalizing seen with
  | nil => rfl
  | cons k rest ih =>
      simp only [marks_aux, List.map_cons]
      have hk : seen.contains k = false := by
        simpa using h2 k (List.mem_cons_self _ _)
      rw [hk]
      rw [ih (seen ++ [k]) (List.nodup_cons.mp h1).2]
      intro x hx
      intro hxs
      rcases List.mem_append.mp hxs with h' | h'
      · exact h2 x (List.mem_cons_of_mem _ hx) h'
      · have hxk : x = k := by simpa using h'
        subst hxk
        exact (List.nodup_cons.mp h1).1 hx

theorem getB_all_false {α : Type} (l : List α) (i : Nat) :
    getB (l.map (fun _ => false)) i = false := by
  unfold getB
  rw [List.getD_eq_getD_get?, List.get?_map]
  cases l.get? i <;> rfl

theorem merge_text_step_unmarked (sep : String) (ms : List Bool) (cur : List LEdge)
    (i : Nat) (h : getB ms i = false) :
    merge_text_step sep ms cur i = cur := by
  unfold merge_text_step
  rw [h]
  rfl

theorem merge_text_pass_unmarked (sep : String) (ms : List Bool) (es : List LEdge)
    (h : ∀ i, getB ms i = false) :
    merge_text_pass sep ms es = es := by
  unfold merge_text_pass
  generalize List.range es.length = l
  induction l generalizing es with
  | nil => rfl
  | cons i rest ih => rw [List.foldl_cons, merge_text_step_unmarked sep ms es i (h i), ih]

theorem remove_marked_all_false {α : Type} (l : List α) :
    remove_marked (l.map (fun _ => false)) l = l := by
  induction l with
  | nil => rfl
  | cons x rest ih =>
      have hred : remove_marked ((x :: rest).map (fun _ => false)) (x :: rest) =
          x :: remove_marked (rest.map (fun _ => false)) rest := rfl
      rw [hred, ih]

theorem keys_remove_marked (ms : List Bool) (es : List LEdge) :
    keys (remove_marked ms es) = remove_marked ms (keys es) := by
  induction ms generalizing es with
  | nil => cases es <;> rfl
  | cons b bs ih =>
      cases es with
      | nil => rfl
      | cons e rest =>
          cases b <;> simp [remove_marked, keys, List.map_cons] <;>
            simpa [keys] using ih rest

/-- Claim C4: `merge_parallel_edges` is idempotent — a second run with the
same separator removes no edge and changes no label — and on the two-edge
scenario (`A → B` labelled `"x"` and `"y"`) one merge with `", "` leaves a
single `A → B` edge labelled `"x, y"`. -/
theorem c4_merge_parallel_edges_idem :
    (∀ (sep : String) (es : List LEdge),
        merge_parallel_edges sep (merge_parallel_edges sep es) =
          merge_parallel_edges sep es) ∧
      merge_parallel_edges ", " [⟨0, 1, "x"⟩, ⟨0, 1, "y"⟩] = [⟨0, 1, "x, y"⟩] := by
  constructor
  · intro sep es
    have hk : keys (merge_parallel_edges sep es) =
        remove_marked (label_parallel_edges_marks es) (keys es) := by
      unfold merge_parallel_edges
      rw [keys_remove_marked, keys_merge_text_pass]
    have hnd : (keys (merge_parallel_edges sep es)).Nodup := by
      rw [hk]
      exact (remove_marked_marks_nodup (keys es) []).1
    have hmz : label_parallel_edges_marks (merge_parallel_edges sep es) =
        (keys (merge_parallel_edges sep es)).map (fun _ => false) :=
      marks_aux_eq_false _ [] hnd (by intro x hx h; cases h)
    have heq : ∀ l : List LEdge, merge_parallel_edges sep l =
        remove_marked (label_parallel_edges_marks l)
          (merge_text_pass sep (label_parallel_edges_marks l) l) := fun _ => rfl
    rw [heq (merge_parallel_edges sep es), hmz]
    rw [merge_text_pass_unmarked _ _ _ (fun i => getB_all_false _ i)]
    have hl : (keys (merge_parallel_edges sep es)).map (fun _ => false) =
        (merge_parallel_edges sep es).map (fun _ => false) := by
      unfold keys
      rw [List.map_map]
      rfl
    rw [hl]
    exact remove_marked_all_false _
  · rfl

/-! ### Claim C6: save/load position round-trip -/

/-- The per-vertex scalar property slots `"x"` and `"y"` of
`g.vertex_properties` that the storage boundary uses. -/
structure VpropStore where
  x : Option (List Rat)
  y : Option (List Rat)
  deriving DecidableEq, Repr

/-- `GraphEditorWindow._save_graph`: `ungroup_vector_property(pos, [0, 1])`
splits the vector position map into its two scalar components, which are
stored as the vertex properties `"x"` and `"y"` before `g.save`. -/
def save_graph (pos : List (Rat × Rat)) (store : VpropStore) : VpropStore :=
  { store with x := some (pos.map (fun p => p.1)), y := some (pos.map (fun p => p.2)) }

inductive LoadResult where
  | ok (pos : Option (List (Rat × Rat))) (store : VpropStore)
  | keyError
  deriving DecidableEq, Repr

/-- `GraphEditorWindow._load_graph` after `load_graph(file_name)`.  The
source tests `"x" in g.vertex_properties` twice in its first condition, so
a file holding `"x"` but not `"y"` still enters the first branch, where
`g.vertex_properties["y"]` raises a `KeyError` (the `elif "x"` arm is
unreachable).  `group_vector_property` pairs the two scalar maps;
`n` is the vertex count (length of the zero map
`g.new_vertex_property("double", 0.)`); the taken branches pop the used
scalar properties. -/
def load_graph (n : Nat) (store : VpropStore) : LoadResult :=
  match store.x with
  | some xs =>
      match store.y with
      | some ys => LoadResult.ok (some (xs.zip ys)) { store with x := none, y := none }
      | none => LoadResult.keyError
  | none =>
      match store.y with
      | some ys =>
          LoadResult.ok (some ((List.replicate n 0).zip ys)) { store with y := none }
      | none => LoadResult.ok none store

theorem zip_map_fst_snd (pos : List (Rat × Rat)) :
    (pos.map (fun p => p.1)).zip (pos.map (fun p => p.2)) = pos := by
  induction pos with
  | nil => rfl
  | cons p rest ih => simp [ih]

/-- Claim C6: saving writes the vector position map into the scalar
properties `x` and `y`, and loading the saved store reconstructs a vector
position map equal (per vertex) to the one that was saved. -/
theorem c6_save_load_roundtrip (n : Nat) (pos : List (Rat × Rat)) (store : VpropStore) :
    load_graph n (save_graph pos store) =
      LoadResult.ok (some pos) { store with x := none, y := none } := by
  unfold save_graph load_graph
  simp [zip_map_fst_snd]

/-! ### Claim C5: the preselection emptiness invariant -/

/-- Soundness of a press/scroll hit oracle: `is_hit` only ever returns an
existing vertex. -/
def press_sound (s : EditorState) (ev : PressEvent) : Bool :=
  match ev.hit with
  | none => true
  | some v => decide (v < s.g.numVertices)

def scroll_sound (s : EditorState) (ev : ScrollEvent) : Bool :=
  match ev.hit with
  | none => true
  | some v => decide (v < s.g.numVertices)

/-- Soundness of a release event's oracles: the hit is an existing vertex,
and `mark_polygon` writes `true` entries for polygon members into the
existing `selected_vertices` map (same length, only additions). -/
def release_sound (s : EditorState) (ev : RelEvent) : Bool :=
  (match ev.hit with
   | none => true
   | some v => decide (v < s.g.numVertices)) &&
    (ev.marked.length == s.selected_vertices.length) &&
    (List.range ev.marked.length).all
      (fun i => !getB s.selected_vertices i || getB ev.marked i)

/-- A `_preselect` toggle on a vertex row is only possible while that row
is shown: the vertices filter lists exactly the currently selected
vertices, and the tree views have models only while something is
picked. -/
def preselect_vertex_guard (s : EditorState) (v : Nat) : Bool :=
  (!(s.picked == PickedVal.noPick)) && getB s.selected_vertices v

def preselect_edge_guard (s : EditorState) (e : Nat) : Bool :=
  (!(s.picked == PickedVal.noPick)) && getB s.selected_edges e

/-- States the widget can reach from a freshly opened tab through the
modelled handlers (an under-approximation of the full event surface:
every constructor corresponds to a user interaction the real widget
accepts in that state). -/
inductive Reachable : EditorState → Prop where
  | init (g : Graph) (pos : List (Rat × Rat)) (mode : Mode) :
      Reachable (init_state g pos mode)
  | press (s : EditorState) (ev : PressEvent) (h : Reachable s)
      (hs : press_sound s ev = true) :
      Reachable (button_press_event s ev).state
  | release (s : EditorState) (ev : RelEvent) (h : Reachable s)
      (hs : release_sound s ev = true) :
      Reachable (button_release_event s ev).state
  | scroll (s : EditorState) (ev : ScrollEvent) (h : Reachable s)
      (hs : scroll_sound s ev = true) :
      Reachable (scroll_event s ev).state
  | preselect_vertex (s : EditorState) (v : Nat) (h : Reachable s)
      (hg : preselect_vertex_guard s v = true) :
      Reachable (window_preselect_vertex s v)
  | preselect_edge (s : EditorState) (e : Nat) (h : Reachable s)
      (hg : preselect_edge_guard s e = true) :
      Reachable (window_preselect_edge s e)

/-- Two isolated vertices; the scenario shift-selects both, preselects
vertex 0, then shift-deselects vertex 0. -/
def c5_g : Graph := ⟨2, []⟩

def c5_e1 : PressEvent := ⟨1, false, true, (0, 0), some 0, (0, 0)⟩
def c5_e3 : PressEvent := ⟨1, false, true, (9, 9), some 1, (9, 9)⟩

def c5_s1 : EditorState :=
  (button_press_event (init_state c5_g [(0, 0), (9, 9)] Mode.select) c5_e1).state

def c5_r1 : RelEvent := ⟨1, (0, 0), none, c5_s1.selected_vertices⟩

def c5_s2 : EditorState := (button_release_event c5_s1 c5_r1).state

def c5_s3 : EditorState := (button_press_event c5_s2 c5_e3).state

def c5_r3 : RelEvent := ⟨1, (9, 9), none, c5_s3.selected_vertices⟩

def c5_s4 : EditorState := (button_release_event c5_s3 c5_r3).state

def c5_s5 : EditorState := window_preselect_vertex c5_s4 0

def c5_s6 : EditorState := (button_press_event c5_s5 c5_e1).state

/-- Claim C5 counterexample: a reachable state whose
`preselected_vertices` is a non-`None` all-false map.  Shift-clicking a
selected, preselected vertex runs `self.preselected_vertices[hit] = False`
without the emptiness check of `_preselect`, and the pick-change
intersection in `do_picked_changed` keeps the all-false map. -/
theorem c5_reachable_empty_preselection :
    Reachable c5_s6 ∧
      c5_s6.preselected_vertices = some [false, false] ∧
      ([false, false].any (fun b => b)) = false := by
  refine ⟨?_, by decide, by decide⟩
  exact Reachable.press c5_s5 c5_e1
    (Reachable.preselect_vertex c5_s4 0
      (Reachable.release c5_s3 c5_r3
        (Reachable.press c5_s2 c5_e3
          (Reachable.release c5_s1 c5_r1
            (Reachable.press (init_state c5_g [(0, 0), (9, 9)] Mode.select) c5_e1
              (Reachable.init c5_g [(0, 0), (9, 9)] Mode.select)
              (by decide))
            (by decide))
          (by decide))
        (by decide))
      (by decide))
    (by decide)

/-- Claim C5 (amended): the `_preselect` toggle itself maintains the
invariant — after it runs, a preselection map it produced is either
`None` or contains a true entry (an all-false map is replaced by `None`) —
but the invariant does not hold in every reachable state (see the
counterexample). -/
theorem window_preselect_vertex_pre (s : EditorState) (v : Nat) :
    (window_preselect_vertex s v).preselected_vertices = none ∨
      ∃ m, (window_preselect_vertex s v).preselected_vertices = some m ∧
        m.any (fun b => b) = true := by
  unfold window_preselect_vertex
  split
  next h => exact Or.inr ⟨_, rfl, h⟩
  next h => exact Or.inl rfl

theorem window_preselect_edge_pre (s : EditorState) (e : Nat) :
    (window_preselect_edge s e).preselected_edges = none ∨
      ∃ m, (window_preselect_edge s e).preselected_edges = some m ∧
        m.any (fun b => b) = true := by
  unfold window_preselect_edge
  split
  next h => exact Or.inr ⟨_, rfl, h⟩
  next h => exact Or.inl rfl

theorem c5_preselect_toggle_invariant (s : EditorState) (v e : Nat) :
    (∀ m, (window_preselect_vertex s v).preselected_vertices = some m →
        m.any (fun b => b) = true) ∧
      (∀ m, (window_preselect_edge s e).preselected_edges = some m →
        m.any (fun b => b) = true) := by
  constructor
  · intro m hm
    rcases window_preselect_vertex_pre s v with h | ⟨m', hm', ha⟩
    · rw [h] at hm; cases hm
    · rw [hm'] at hm
      cases Option.some.inj hm
      exact ha
  · intro m hm
    rcases window_preselect_edge_pre s e with h | ⟨m', hm', ha⟩
    · rw [h] at hm; cases hm
    · rw [hm'] at hm
      cases Option.some.inj hm
      exact ha

/-- One-vertex, one-self-loop state used to exercise both toggles. -/
def c5_w : EditorState :=
  { (init_state ⟨1, [(0, 0)]⟩ [(0, 0)] Mode.select) with
    picked := PickedVal.vertex 0
    selected_vertices := [true]
    selected_edges := [true] }

/-- Witness for `c5_preselect_toggle_invariant`: toggling preselection of
vertex 0 (resp. edge 0) on `c5_w` yields the non-empty map `[true]`. -/
theorem c5_preselect_toggle_invariant_witness :
    (window_preselect_vertex c5_w 0).preselected_vertices = some [true] ∧
      [true].any (fun b => b) = true ∧
      (window_preselect_edge c5_w 0).preselected_edges = some [true] := by
  refine ⟨by decide, ?_, by decide⟩
  exact (c5_preselect_toggle_invariant c5_w 0 0).1 [true] (by decide)

end PyFlap
